import Mathlib

/-!
Verification of the artifact/rule build-graph core of the `gear` build engine.

The definitions below are shallow embeddings of the Rust source:
  * `src/artifact.rs`  — artifacts, usage/kind tags, `is_source`, `outdated`
  * `src/rule.rs`      — rule states, `Rule::from_api`, `Rule::process`
  * `src/diagnostic.rs`— diagnostics, severities, `is_failed`
  * `src/processor.rs` — the bounded-parallelism scheduler
  * `src/compiler/platform.rs` — platform-adjusted file names
  * `src/compiler/compiler.rs` — the link rule's inputs/outputs

Machine integers are modelled as `Nat` with explicit `% 2 ^ 64` where the
source relies on wrapping arithmetic; timestamps are `Nat` (epoch = 0);
fallible calls return `Except String`.
-/

namespace Gear

/-! ## Artifact data model (src/artifact.rs)

`ArtifactType` mirrors `enum ArtifactType { Source, Product }` and
`ArtifactKind` mirrors `enum ArtifactKind { Actual, Phony }`.
-/

inductive ArtifactType where
  | source
  | product
deriving DecidableEq, BEq, Repr

inductive ArtifactKind where
  | actual
  | phony
deriving DecidableEq, BEq, Repr

/-- Usage tags: the compile-time-only `Input` / `Output` phantom parameters of
`Artifact<U, K>` (src/artifact.rs lines 99-119), re-expressed as a runtime
enum as the spec's design notes direct. -/
inductive Usage where
  | input
  | output
deriving DecidableEq, BEq, Repr

/-- Mirrors `IsArtifactUsage::TYPE`: `Input::TYPE = Source`, `Output::TYPE = Product`. -/
def Usage.TYPE : Usage → ArtifactType
  | .input => .source
  | .output => .product

/- The artifact graph node, mirroring `struct Internal` of src/artifact.rs:
`name`, `description`, `rule: Mut<Option<Rule>>`, `time: Mut<Time>`,
`type_`, `kind`.  The attached rule is modelled by the only part of it that
the artifact-side operations (`inputs`, `outdated`, `process`) consult:
its input list (`rule.inputs()`).  `OptRule` stands for `Option<Rule>` and
`InputList` for the rule's `Vec<Artifact<Input>>`; they are a mutual
inductive so that the recursive `outdated` is structural. -/
mutual

inductive Artifact where
  | mk (name : String) (description : String) (type_ : ArtifactType)
       (kind : ArtifactKind) (time : Nat) (rule : OptRule)

inductive OptRule where
  | none
  | some (inputs : InputList)

inductive InputList where
  | nil
  | cons (head : Artifact) (tail : InputList)

end

def InputList.toList : InputList → List Artifact
  | .nil => []
  | .cons a rest => a :: rest.toList

def InputList.ofList : List Artifact → InputList
  | [] => .nil
  | a :: rest => .cons a (InputList.ofList rest)

def Artifact.name : Artifact → String
  | .mk n _ _ _ _ _ => n

def Artifact.description : Artifact → String
  | .mk _ d _ _ _ _ => d

def Artifact.type_ : Artifact → ArtifactType
  | .mk _ _ t _ _ _ => t

def Artifact.kind : Artifact → ArtifactKind
  | .mk _ _ _ k _ _ => k

def Artifact.time : Artifact → Nat
  | .mk _ _ _ _ t _ => t

def Artifact.rule : Artifact → OptRule
  | .mk _ _ _ _ _ r => r

def OptRule.isSome : OptRule → Bool
  | .none => false
  | .some _ => true

def OptRule.isNone : OptRule → Bool
  | .none => true
  | .some _ => false

/-- Mirrors `Artifact::has_rule`: `self.0.rule.read().is_some()`. -/
def Artifact.has_rule (a : Artifact) : Bool :=
  a.rule.isSome

/-- Mirrors `Artifact::is_source`: `self.type_() == ArtifactType::Source`
(src/artifact.rs lines 355-357). -/
def Artifact.is_source (a : Artifact) : Bool :=
  a.type_ == ArtifactType.source

/-- Mirrors `Artifact::is_phony`: `self.kind() == ArtifactKind::Phony`. -/
def Artifact.is_phony (a : Artifact) : Bool :=
  a.kind == ArtifactKind.phony

/-- Mirrors `Artifact::inputs`: the input set of the attached rule, or the empty
iterator when no rule is attached (src/artifact.rs lines 363-370). -/
def Artifact.inputs (a : Artifact) : List Artifact :=
  match a.rule with
  | .none => []
  | .some ins => ins.toList

/-- Mirrors `Artifact::new_raw` with the usage and kind tags made explicit:
fresh artifact, `time: Time::UNIX_EPOCH`, `rule: Default::default()` (none),
`type_: U::TYPE`, `kind: K::KIND` (src/artifact.rs lines 211-226). -/
def Artifact.new_raw (u : Usage) (k : ArtifactKind)
    (name description : String) : Artifact :=
  .mk name description u.TYPE k 0 .none

/-- Mirrors `Artifact::<Output, K>::set_rule`: `*self.0.rule.write() = Some(rule)`
(src/artifact.rs lines 515-517). -/
def Artifact.set_rule (a : Artifact) (inputs : InputList) : Artifact :=
  match a with
  | .mk n d t k time _ => .mk n d t k time (.some inputs)

/-- Mirrors `Artifact::set_time`: `*self.0.time.write() = time`. -/
def Artifact.set_time (a : Artifact) (time : Nat) : Artifact :=
  match a with
  | .mk n d t k _ r => .mk n d t k time r

/-- Mirrors `IsArtifactUsage::reusable`: for `Input` always true; for `Output`
`artifact.type_() != ArtifactType::Source && !artifact.has_rule()`
(src/artifact.rs lines 101-119). -/
def Usage.reusable : Usage → Artifact → Bool
  | .input, _ => true
  | .output, a => (a.type_ != ArtifactType.source) && (! a.has_rule)

/-! `Artifact::outdated` (src/artifact.rs lines 377-384):

```rust
pub fn outdated(&self) -> bool {
    if self.is_source() {
        false
    } else {
        self.inputs()
            .any(|dep| dep.outdated() || dep.time() > self.time())
    }
}
```
`outdatedAny time ins` is the `any` over the rule's input list. -/

mutual

def Artifact.outdated : Artifact → Bool
  | .mk _ _ t _ time rule =>
    if t == ArtifactType.source then false
    else
      match rule with
      | .none => false
      | .some ins => ins.outdatedAny time

def InputList.outdatedAny : InputList → Nat → Bool
  | .nil, _ => false
  | .cons dep deps, time =>
    (dep.outdated || decide (dep.time > time)) || deps.outdatedAny time

end

theorem outdatedAny_eq_any (ins : InputList) (time : Nat) :
    ins.outdatedAny time
      = ins.toList.any (fun dep => dep.outdated || decide (dep.time > time)) := by
  match ins with
  | .nil => rfl
  | .cons dep deps =>
    simp [InputList.outdatedAny, InputList.toList, outdatedAny_eq_any deps time]

/-- Mirrors `outdated` re-expressed through the named accessors. -/
theorem outdated_eq (a : Artifact) :
    a.outdated
      = if a.is_source then false
        else a.inputs.any (fun dep => dep.outdated || decide (dep.time > a.time)) := by
  match a with
  | .mk n d t k time rule =>
    cases t <;> cases rule <;>
      simp [Artifact.outdated, Artifact.is_source, Artifact.inputs,
        Artifact.type_, Artifact.time, Artifact.rule, outdatedAny_eq_any]

theorem has_rule_false_inputs (a : Artifact) (h : a.has_rule = false) :
    a.inputs = [] := by
  unfold Artifact.has_rule at h
  unfold Artifact.inputs
  cases hr : a.rule
  · rfl
  · rw [hr] at h
    simp [OptRule.isSome] at h

/-- A phony goal artifact with a rule attached and no inputs, as produced by
`Scope::new_goal` + `NoRule` before any dependency is added. -/
def phonyGoalNoInputs : Artifact :=
  Artifact.mk "all" "" .product .phony 0 (.some .nil)

/-- C1, counterexample: the claim's characterisation of `outdated()` fails at
a phony artifact that has a rule with no (stale) inputs — the claim's
"is phony OR ..." disjunct makes it outdated, but `Artifact::outdated` has no
phony special case (the phony seeding lives in `Artifact::process`, not in
`outdated`), so the code yields `false`. -/
theorem artifact_outdated_claim_counterexample :
    ¬ (phonyGoalNoInputs.outdated
        = (phonyGoalNoInputs.has_rule
            && (phonyGoalNoInputs.is_phony
                || phonyGoalNoInputs.inputs.any
                    (fun dep => dep.outdated
                      || decide (dep.time > phonyGoalNoInputs.time))))) := by
  decide

/-- C1, amended: for every artifact satisfying the reachable-state invariant
"a source never has a rule" (spec §3 invariant 5), `outdated()` is true iff
the artifact has a rule AND some input of the rule is outdated or has a
timestamp strictly greater than the artifact's; there is no phony
special-case, and a source artifact is never outdated. -/
theorem artifact_outdated_amended (a : Artifact)
    (h : (a.is_source && a.has_rule) = false) :
    a.outdated
      = (a.has_rule
          && a.inputs.any (fun dep => dep.outdated || decide (dep.time > a.time))) := by
  rw [outdated_eq]
  cases hs : a.is_source with
  | true =>
    have hr : a.has_rule = false := by
      cases hra : a.has_rule
      · rfl
      · rw [hs, hra] at h
        simp at h
    simp [hr]
  | false =>
    cases hr : a.has_rule with
    | true => simp [hr]
    | false => simp [hr, has_rule_false_inputs a hr]

/-- A non-source artifact whose single input is a fresher source. -/
def outdatedObjArtifact : Artifact :=
  Artifact.mk "a.o" "" .product .actual 5
    (.some (.cons (Artifact.mk "a.c" "" .source .actual 9 .none) .nil))

theorem artifact_outdated_amended_witness :
    (outdatedObjArtifact.is_source && outdatedObjArtifact.has_rule) = false
    ∧ outdatedObjArtifact.outdated
        = (outdatedObjArtifact.has_rule
            && outdatedObjArtifact.inputs.any
                (fun dep => dep.outdated
                  || decide (dep.time > outdatedObjArtifact.time))) :=
  ⟨by decide, artifact_outdated_amended outdatedObjArtifact (by decide)⟩

/-- An `Output`-usage actual artifact to which no rule has been attached yet
(`CompilerConfig::link` creates its outputs exactly like this before
`set_rule`). -/
def outputNoRule : Artifact :=
  Artifact.new_raw .output .actual "x.o" ""

/-- C5, counterexample: `is_source()` is not "rule is none".  An output
artifact without a rule has `rule = None` but `is_source() = false`, because
`is_source` tests the `ArtifactType` tag fixed at creation
(`Output::TYPE = Product`), not rule presence. -/
theorem is_source_claim_counterexample :
    ¬ (outputNoRule.is_source = outputNoRule.rule.isNone) := by
  decide

/-- C5, amended: `is_source()` returns true exactly when the artifact was
created with `Input` usage (so its type tag is `Source`); attaching a rule
never changes it; and the `Output`-usage coercion guard `reusable` only
accepts non-source artifacts, so an artifact that acquired a rule through an
output handle is never a source. -/
theorem is_source_amended (u : Usage) (k : ArtifactKind) (n d : String)
    (a : Artifact) (ins : InputList) :
    (Artifact.new_raw u k n d).is_source = decide (u = Usage.input)
    ∧ (a.set_rule ins).is_source = a.is_source
    ∧ (Usage.reusable .output a && a.is_source) = false := by
  refine ⟨?_, ?_, ?_⟩
  · cases u <;> rfl
  · cases a
    rfl
  · cases a with
    | mk n' d' t' k' time' rule' =>
      cases t'
      · rfl
      · simp [Artifact.is_source, Artifact.type_]
        intro
        rfl

/-! ## Diagnostics (src/diagnostic.rs)

`Severity` mirrors `enum Severity { Fatal, Error, Warning, Note, Debug }`
whose derived `Ord` follows declaration order (`Fatal` smallest). -/

inductive Severity where
  | fatal
  | error
  | warning
  | note
  | debug
deriving DecidableEq, BEq, Repr

/-- The derived discriminant order of `Severity`. -/
def Severity.toNat : Severity → Nat
  | .fatal => 0
  | .error => 1
  | .warning => 2
  | .note => 3
  | .debug => 4

/-- Mirrors `Ord::min` under the derived order: `if self > other { other } else { self }`. -/
def Severity.minSev (a b : Severity) : Severity :=
  if a.toNat ≤ b.toNat then a else b

/-- Mirrors `impl Default for Severity` (src/diagnostic.rs lines 45-49): `Fatal`. -/
def Severity.defaultSeverity : Severity := .fatal

structure TextPoint where
  line : Nat
  column : Nat
deriving DecidableEq, Repr

structure TextSpan where
  start : TextPoint
  «end» : TextPoint
deriving DecidableEq, Repr

structure Location where
  file : String
  span : Option TextSpan
  point : Option TextPoint
  label : Option String
deriving DecidableEq, Repr

structure FixingSuggestion where
  file : String
  span : TextSpan
  text : String
deriving DecidableEq, Repr

/-- Mirrors `struct Diagnostic` (src/diagnostic.rs lines 25-32): severity, message,
locations, nested child diagnostics, fix-it suggestions. -/
inductive Diagnostic where
  | mk (severity : Severity) (message : String) (locations : List Location)
       (children : List Diagnostic) (fixits : List FixingSuggestion)

def Diagnostic.severity : Diagnostic → Severity
  | .mk s _ _ _ _ => s

/-- Mirrors `Diagnostic::default()`: all fields defaulted, so `severity = Fatal`. -/
def Diagnostic.defaultDiagnostic : Diagnostic := .mk .fatal "" [] [] []

/-- Mirrors `struct Diagnostics(pub Vec<Diagnostic>)`. -/
abbrev Diagnostics := List Diagnostic

/-- Mirrors `Diagnostics::severity` (src/diagnostic.rs lines 13-18):
`self.0.iter().fold(Severity::Debug, |min, d| min.min(d.severity))`. -/
def Diagnostics.severity (ds : Diagnostics) : Severity :=
  ds.foldl (fun m d => m.minSev d.severity) Severity.debug

/-- Mirrors `Diagnostics::is_failed` (src/diagnostic.rs lines 20-22):
`self.severity() <= Severity::Error` under the derived order. -/
def Diagnostics.is_failed (ds : Diagnostics) : Bool :=
  ds.severity.toNat ≤ Severity.error.toNat

/-- Mirrors `Diagnostics::default()`: the empty bundle. -/
def Diagnostics.defaultDiagnostics : Diagnostics := []

/-! ## Rule state and `Rule::process` (src/rule.rs) -/

/-- Mirrors `enum RuleState { Processed, Scheduled, Processing }`. -/
inductive RuleState where
  | processed
  | scheduled
  | processing
deriving DecidableEq, BEq, Repr

/-- Mirrors `impl Default for RuleState`: `Processed`. -/
def RuleState.defaultState : RuleState := .processed

/-- The mutable state that `Rule::process` touches: the rule's `state` and
`diagnostics` cells plus the timestamps of its output artifacts. -/
structure ProcState where
  state : RuleState
  diagnostics : Diagnostics
  output_times : List Nat

/-- Mirrors `Rule::process` (src/rule.rs lines 125-152) as a pure state
transformation.  `mkdirOk` is the outcome of the `create_dir_all` preflight
over the outputs' parent directories; `invoke` is the awaited result of
`self.0.api.clone().invoke()`; `now` is `Time::now()`.

```rust
pub async fn process(&self) -> Result<()> {
    { *self.0.state.write() = RuleState::Processing; }
    for output in self.0.api.outputs() { ... create_dir_all(dir).await?; }
    let diagnostics = self.0.api.clone().invoke().await?;
    let is_failed = diagnostics.is_failed();
    { *self.0.diagnostics.write() = diagnostics; }
    if is_failed { Err(format!("Failed processing rule"))?; }
    let time = Time::now();
    for output in self.0.api.outputs() { output.set_time(time); }
    { *self.0.state.write() = RuleState::Processed; }
    Ok(())
}
``` -/
def Rule.process (mkdirOk : Bool) (invoke : Except String Diagnostics)
    (now : Nat) (s : ProcState) : Except String Unit × ProcState :=
  let s := { s with state := RuleState.processing }
  if ! mkdirOk then (Except.error "Unable to create directory", s)
  else
    match invoke with
    | .error e => (.error e, s)
    | .ok diagnostics =>
      let failed := diagnostics.is_failed
      let s := { s with diagnostics := diagnostics }
      if failed then (Except.error "Failed processing rule", s)
      else
        let time := now
        let s := { s with output_times := s.output_times.map (fun _ => time) }
        let s := { s with state := RuleState.processed }
        (Except.ok (), s)

/-- A rule state as the scheduler leaves it just before processing, with two
output artifacts stamped at 3 and 4. -/
def schedState : ProcState := ⟨.scheduled, [], [3, 4]⟩

/-- A diagnostics bundle whose worst severity is `Error`. -/
def errorDiagnostics : Diagnostics := [Diagnostic.mk .error "boom" [] [] []]

/-- C3, counterexample: when the invocation's diagnostics bundle is failed,
`Rule::process` returns early through `Err(...)` and never executes the final
`*state.write() = Processed`, so the state observed afterwards is
`Processing`, not `Processed`. -/
theorem rule_process_state_claim_counterexample :
    ¬ ((Rule.process true (Except.ok errorDiagnostics) 42 schedState).2.state
        = RuleState.processed) := by
  decide

/-- C3, amended: `Rule::process` sets the state to `Processing` when
invocation starts; after the call the state is `Processed` exactly when the
call returned `Ok`, and remains `Processing` whenever the call returned an
error (directory-creation failure, invocation error, or a failed diagnostics
bundle).  The `Processed` *event* is still emitted by the scheduler's
`process_rule` wrapper in both cases, but the stored state is not reset. -/
theorem rule_process_state_amended (mkdirOk : Bool)
    (invoke : Except String Diagnostics) (now : Nat) (s : ProcState) :
    (Rule.process mkdirOk invoke now s).2.state
      = (match (Rule.process mkdirOk invoke now s).1 with
          | .ok _ => RuleState.processed
          | .error _ => RuleState.processing) := by
  unfold Rule.process
  cases mkdirOk
  · rfl
  · cases invoke with
    | error e => rfl
    | ok d => cases hf : d.is_failed <;> simp [hf]

/-- C4, confirmed: after awaiting the invocation (so `create_dir_all`
succeeded and `invoke` returned a bundle `d`), `Rule::process` stores `d` on
the rule unconditionally; if the bundle's worst severity is Error or Fatal
(`is_failed`) it returns an error and leaves every output timestamp
untouched; otherwise it returns `Ok` and stamps every output with one and
the same timestamp `now`. -/
theorem rule_process_diagnostics_spec (d : Diagnostics) (now : Nat)
    (s : ProcState) :
    (Rule.process true (Except.ok d) now s).2.diagnostics = d
    ∧ (Rule.process true (Except.ok d) now s).1
        = (if d.is_failed then Except.error "Failed processing rule"
           else Except.ok ())
    ∧ (Rule.process true (Except.ok d) now s).2.output_times
        = (if d.is_failed then s.output_times
           else s.output_times.map fun _ => now) := by
  unfold Rule.process
  cases hf : d.is_failed <;> simp [hf]

/-- Mirrors `NoInternal::invoke` (src/rule.rs lines 204-206):
`async { Ok(Diagnostics::default()) }`. -/
def NoInternal.invoke : Except String Diagnostics :=
  Except.ok Diagnostics.defaultDiagnostics

/-- C10, confirmed: the worst severity of an empty diagnostics bundle is
`Debug`, so `Diagnostics::default().is_failed()` is false; hence a no-op
rule's invocation (`NoInternal::invoke`, returning the empty bundle) always
passes the severity check in `Rule::process`, even though a single
`Diagnostic::default()` record has severity `Fatal`. -/
theorem empty_diagnostics_not_failed :
    Diagnostics.severity Diagnostics.defaultDiagnostics = Severity.debug
    ∧ Diagnostics.is_failed Diagnostics.defaultDiagnostics = false
    ∧ Diagnostic.defaultDiagnostic.severity = Severity.fatal
    ∧ Severity.defaultSeverity = Severity.fatal
    ∧ NoInternal.invoke = Except.ok []
    ∧ (Rule.process true NoInternal.invoke 42 schedState).1 = Except.ok () :=
  ⟨rfl, rfl, rfl, rfl, rfl, rfl⟩



/-! ## The scheduler (src/processor.rs, `ArtifactStore::process_artifacts`)

The execution loop is embedded generically: `R` is the rule type, the
abstract state `σ` carries whatever the rules' readiness and effects depend
on (artifact timestamps in the real system).  `run w r` is
`Self::process_rule(rule, emit)` — it returns whether the rule succeeded and
the state after its completion; `ready w r` is `rule.ready_inputs()`
evaluated against state `w`; `choice` resolves which in-flight task
`future::select_all` completes next (the model linearises each task's
effects at its completion).  Creating a task does not touch the state —
a picked task only runs when awaited — so readiness during one pick pass is
evaluated against a fixed state, as in the source. -/

/- One slot of the initial pick (src/processor.rs lines 75-97): pop rules
from the queue front until a ready one is found; a not-ready rule is pushed
back and `out` is bumped; when `out` reaches the queue length the pass gives
up.  Returns the picked rule (if any) and the rotated queue. -/
def pick_one {R : Type} (ready : R → Bool) (queue : List R) (out : Nat) :
    Option R × List R :=
  match queue with
  | [] => (none, [])
  | rule :: rest =>
    if ready rule then (some rule, rest)
    else
      if h : out + 1 ≥ (rest ++ [rule]).length then (none, rest ++ [rule])
      else pick_one ready (rest ++ [rule]) (out + 1)
termination_by (queue.length, queue.length - out)
decreasing_by
  simp_wf
  simp at h
  omega

theorem pick_one_length {R : Type} (ready : R → Bool) (queue : List R)
    (out : Nat) :
    (pick_one ready queue out).1.toList.length
      + (pick_one ready queue out).2.length = queue.length := by
  induction queue, out using pick_one.induct ready with
  | case1 => simp [pick_one]
  | case2 rule rest out h =>
    simp [pick_one, h]
    omega
  | case3 rule rest out h h2 =>
    simp only [pick_one, h, if_false, Bool.false_eq_true]
    rw [dif_pos h2]
    simp
  | case4 rule rest out h h2 ih =>
    simp only [pick_one, h, if_false, Bool.false_eq_true]
    rw [dif_neg h2]
    simpa using ih

/- The initial pick `(0..jobs).filter_map(|_| ...)` (src/processor.rs lines
75-97): `jobs` slots, each running one `pick_one` pass over the shared,
already-rotated queue; picked rules are collected in slot order. -/
def initial_pick {R : Type} (ready : R → Bool) : Nat → List R → List R × List R
  | 0, queue => (queue, [])
  | j + 1, queue =>
    match pick_one ready queue 0 with
    | (some rule, queue') =>
      let rest := initial_pick ready j queue'
      (rest.1, rule :: rest.2)
    | (none, queue') => initial_pick ready j queue'

theorem initial_pick_length {R : Type} (ready : R → Bool) (jobs : Nat)
    (queue : List R) :
    (initial_pick ready jobs queue).1.length
      + (initial_pick ready jobs queue).2.length = queue.length := by
  induction jobs generalizing queue with
  | zero => simp [initial_pick]
  | succ j ih =>
    have h := pick_one_length ready queue 0
    unfold initial_pick
    match hp : pick_one ready queue 0 with
    | (some rule, queue') =>
      rw [hp] at h
      simp only [Option.toList, List.length_cons, List.length_nil] at h
      have h2 := ih queue'
      simp
      omega
    | (none, queue') =>
      rw [hp] at h
      simp only [Option.toList, List.length_nil] at h
      have h2 := ih queue'
      simp
      omega

theorem initial_pick_picked_le {R : Type} (ready : R → Bool) (jobs : Nat)
    (queue : List R) :
    (initial_pick ready jobs queue).2.length ≤ jobs := by
  induction jobs generalizing queue with
  | zero => simp [initial_pick]
  | succ j ih =>
    unfold initial_pick
    match hp : pick_one ready queue 0 with
    | (some rule, queue') =>
      have h2 := ih queue'
      simp
      omega
    | (none, queue') =>
      have h2 := ih queue'
      simp
      omega

/- The completion-time top-up loop (src/processor.rs lines 109-125):
`while !queue.is_empty() && pending.len() < jobs { pop; if ready push to
pending else rotate, bumping out; break when out >= queue.len() }`.
Returns the remaining queue and the refilled pending set. -/
def top_up {R : Type} (ready : R → Bool) (jobs : Nat) (queue pending : List R)
    (out : Nat) : List R × List R :=
  match queue with
  | [] => ([], pending)
  | rule :: rest =>
    if jobs ≤ pending.length then (rule :: rest, pending)
    else if ready rule then top_up ready jobs rest (pending ++ [rule]) out
    else
      if h : out + 1 ≥ (rest ++ [rule]).length then (rest ++ [rule], pending)
      else top_up ready jobs (rest ++ [rule]) pending (out + 1)
termination_by (queue.length, queue.length - out)
decreasing_by
  · simp_wf
    omega
  · simp_wf
    simp at h
    omega

theorem top_up_length {R : Type} (ready : R → Bool) (jobs : Nat)
    (queue pending : List R) (out : Nat) :
    (top_up ready jobs queue pending out).1.length
      + (top_up ready jobs queue pending out).2.length
      = queue.length + pending.length := by
  induction queue, pending, out using top_up.induct ready jobs with
  | case1 pending => simp [top_up]
  | case2 rule rest pending out h =>
    simp [top_up, h]
  | case3 rule rest pending out h h2 ih =>
    simp only [top_up, h, if_false, h2, if_true]
    simp at ih ⊢
    omega
  | case4 rule rest pending out h h2 h3 =>
    simp only [top_up, h, if_false, h2, Bool.false_eq_true]
    rw [dif_pos h3]
    simp
  | case5 rule rest pending out h h2 h3 ih =>
    simp only [top_up, h, if_false, h2, Bool.false_eq_true]
    rw [dif_neg h3]
    simp at ih ⊢
    omega

theorem top_up_pending_le {R : Type} (ready : R → Bool) (jobs : Nat)
    (queue pending : List R) (out : Nat) (hp : pending.length ≤ jobs) :
    (top_up ready jobs queue pending out).2.length ≤ jobs := by
  induction queue, pending, out using top_up.induct ready jobs with
  | case1 pending => simpa [top_up] using hp
  | case2 rule rest pending out h =>
    simpa [top_up, h] using hp
  | case3 rule rest pending out h h2 ih =>
    simp only [top_up, h, if_false, h2, if_true]
    apply ih
    simp
    omega
  | case4 rule rest pending out h h2 h3 =>
    simp only [top_up, h, if_false, h2, Bool.false_eq_true]
    rw [dif_pos h3]
    simpa using hp
  | case5 rule rest pending out h h2 h3 ih =>
    simp only [top_up, h, if_false, h2, Bool.false_eq_true]
    rw [dif_neg h3]
    exact ih hp

theorem top_up_sum_lt {R : Type} (ready : R → Bool) (jobs : Nat)
    (queue pending : List R) (out n : Nat) (h : pending.length < n) :
    (top_up ready jobs queue pending out).1.length
      + (top_up ready jobs queue pending out).2.length < queue.length + n := by
  have := top_up_length ready jobs queue pending out
  omega

/- The outcome of the `while !pending_tasks.is_empty()` loop
(src/processor.rs lines 99-127): final state, unprocessed queue, the rules
actually run, the rules whose processing returned an error (logged and
ignored by the loop), and the trace of in-flight task counts observed at
each loop iteration. -/
structure LoopResult (σ R : Type) where
  world : σ
  queue : List R
  processed : List R
  failed : List R
  trace : List Nat

def sched_cons {σ R : Type} (sel : R) (ok : Bool) (n : Nat)
    (rest : LoopResult σ R) : LoopResult σ R :=
  ⟨rest.world, rest.queue, sel :: rest.processed,
    if ok then rest.failed else sel :: rest.failed, n :: rest.trace⟩

/- The execution loop of `process_artifacts` (src/processor.rs lines
99-127): await any running task (`select_all`, resolved by `choice`), log
its error if it failed, then top up the running set from the queue; loop
until no task is in flight.  Each iteration records the in-flight count. -/
def sched_loop {σ R : Type} (run : σ → R → Bool × σ) (ready : σ → R → Bool)
    (choice : Nat → Nat) (jobs : Nat) (k : Nat) (world : σ)
    (queue pending : List R) : LoopResult σ R :=
  match pending with
  | [] => ⟨world, queue, [], [], []⟩
  | p :: ps =>
    sched_cons ((p :: ps).getD (choice k % (p :: ps).length) p)
      (run world ((p :: ps).getD (choice k % (p :: ps).length) p)).1
      (p :: ps).length
      (sched_loop run ready choice jobs (k + 1)
        (run world ((p :: ps).getD (choice k % (p :: ps).length) p)).2
        (top_up (ready (run world ((p :: ps).getD (choice k % (p :: ps).length) p)).2)
          jobs queue ((p :: ps).eraseIdx (choice k % (p :: ps).length)) 0).1
        (top_up (ready (run world ((p :: ps).getD (choice k % (p :: ps).length) p)).2)
          jobs queue ((p :: ps).eraseIdx (choice k % (p :: ps).length)) 0).2)
termination_by queue.length + pending.length
decreasing_by
  simp_wf
  apply top_up_sum_lt
  simp only [List.length_eraseIdx, List.length_cons]
  split
  · omega
  · exact absurd (Nat.mod_lt _ (Nat.succ_pos _)) (by assumption)

theorem sched_loop_length {σ R : Type} (run : σ → R → Bool × σ)
    (ready : σ → R → Bool) (choice : Nat → Nat) (jobs : Nat) (k : Nat)
    (world : σ) (queue pending : List R) :
    (sched_loop run ready choice jobs k world queue pending).processed.length
      + (sched_loop run ready choice jobs k world queue pending).queue.length
      = queue.length + pending.length := by
  induction k, world, queue, pending using sched_loop.induct run ready choice jobs with
  | case1 k world queue => simp [sched_loop]
  | case2 k world queue p ps ih =>
    rw [sched_loop]
    simp only [sched_cons, List.length_cons]
    have ht := top_up_length
      (ready (run world ((p :: ps).getD (choice k % (p :: ps).length) p)).2) jobs
      queue ((p :: ps).eraseIdx (choice k % (p :: ps).length)) 0
    have he : ((p :: ps).eraseIdx (choice k % (p :: ps).length)).length
        = ps.length := by
      rw [List.length_eraseIdx_of_lt (Nat.mod_lt _ (by simp))]
      simp
    rw [he] at ht
    simp only [List.length_cons] at ih ht ⊢
    omega

theorem sched_loop_trace_le {σ R : Type} (run : σ → R → Bool × σ)
    (ready : σ → R → Bool) (choice : Nat → Nat) (jobs : Nat) (k : Nat)
    (world : σ) (queue pending : List R) (hp : pending.length ≤ jobs) :
    ((sched_loop run ready choice jobs k world queue pending).trace.all
      (fun x => decide (x ≤ jobs))) = true := by
  induction k, world, queue, pending using sched_loop.induct run ready choice jobs with
  | case1 k world queue => simp [sched_loop]
  | case2 k world queue p ps ih =>
    rw [sched_loop]
    simp only [sched_cons, List.all_cons, Bool.and_eq_true, decide_eq_true_eq]
    constructor
    · simpa using hp
    · apply ih
      apply top_up_pending_le
      rw [List.length_eraseIdx_of_lt (Nat.mod_lt _ (by simp))]
      simp at hp ⊢
      omega

/- The observable outcome of `ArtifactStore::process_artifacts`. -/
structure SchedResult (σ R : Type) where
  result : Except String Unit
  world : σ
  queue : List R
  processed : List R
  failed : List R
  trace : List Nat

/- `ArtifactStore::process_artifacts` (src/processor.rs lines 43-135) after
the schedule walk built the deduplicated rule queue: on `dry_run` return Ok
immediately; otherwise pick up to `jobs` ready rules, run the loop, and fail
with "Cannot be built" iff the queue did not drain. -/
def process_artifacts {σ R : Type} (run : σ → R → Bool × σ)
    (ready : σ → R → Bool) (choice : Nat → Nat) (jobs : Nat) (dry_run : Bool)
    (world : σ) (queue : List R) : SchedResult σ R :=
  if dry_run then ⟨Except.ok (), world, queue, [], [], []⟩
  else
    let qp := initial_pick (ready world) jobs queue
    let lr := sched_loop run ready choice jobs 0 world qp.1 qp.2
    ⟨if lr.queue.isEmpty then Except.ok () else Except.error "Cannot be built",
      lr.world, lr.queue, lr.processed, lr.failed, lr.trace⟩

/-- C2, amended: for every run of the scheduler with `dry_run = false`, a
rule's processing error does not abort sibling rules — the loop always
continues until no task is in flight, and every rule that left the queue was
actually processed (`processed + leftover queue = initial queue`); the call
fails with "Cannot be built" exactly when the work queue is non-empty after
the loop, and returns Ok exactly when the queue drained — even if some rules
failed. -/
theorem process_artifacts_result_amended {σ R : Type} (run : σ → R → Bool × σ)
    (ready : σ → R → Bool) (choice : Nat → Nat) (jobs : Nat)
    (world : σ) (queue : List R) :
    ((process_artifacts run ready choice jobs false world queue).result
      = if (process_artifacts run ready choice jobs false world queue).queue.isEmpty
        then Except.ok () else Except.error "Cannot be built")
    ∧ (process_artifacts run ready choice jobs false world queue).processed.length
        + (process_artifacts run ready choice jobs false world queue).queue.length
        = queue.length := by
  constructor
  · simp [process_artifacts]
  · simp only [process_artifacts, if_false, Bool.false_eq_true]
    have h1 := initial_pick_length (ready world) jobs queue
    have h2 := sched_loop_length run ready choice jobs 0 world
      (initial_pick (ready world) jobs queue).1
      (initial_pick (ready world) jobs queue).2
    omega

/-- C6, confirmed: throughout any run of `process_artifacts` with
parallelism bound `jobs`, the set of in-flight rule tasks never holds more
than `jobs` entries: at most `jobs` ready rules are picked initially, and
the top-up after each completion keeps the running set at or below `jobs`
(every in-flight count in the trace is ≤ `jobs`). -/
theorem process_artifacts_jobs_bound {σ R : Type} (run : σ → R → Bool × σ)
    (ready : σ → R → Bool) (choice : Nat → Nat) (jobs : Nat) (dry_run : Bool)
    (world : σ) (queue : List R) :
    ((process_artifacts run ready choice jobs dry_run world queue).trace.all
      (fun x => decide (x ≤ jobs))) = true := by
  cases dry_run with
  | true => simp [process_artifacts]
  | false =>
    simp only [process_artifacts, if_false, Bool.false_eq_true]
    apply sched_loop_trace_le
    exact initial_pick_picked_le (ready world) jobs queue

/- A concrete instantiation used as a test harness: rules carry an id, the
ids of rules whose prior success their readiness requires, and whether
their processing succeeds; the state is the list of successfully completed
rule ids. -/
structure SRule where
  id : Nat
  deps : List Nat
  ok : Bool
deriving DecidableEq, Repr

def srun (world : List Nat) (r : SRule) : Bool × List Nat :=
  (r.ok, if r.ok then r.id :: world else world)

def sready (world : List Nat) (r : SRule) : Bool :=
  r.deps.all (fun d => world.contains d)

def failingRule : SRule := ⟨1, [], false⟩

/-- C2, counterexample to the claim as stated: a single ready rule whose
processing fails.  The loop pops it, runs it, logs the error, and the queue
is empty afterwards — so `process_artifacts` returns Ok even though a rule
failed, refuting "returns Ok only when the queue drained cleanly with *no
failed rules*". -/
theorem process_artifacts_ok_with_failed_rule :
    (process_artifacts srun sready (fun _ => 0) 1 false [] [failingRule]).result
      = Except.ok ()
    ∧ (process_artifacts srun sready (fun _ => 0) 1 false []
        [failingRule]).failed ≠ [] := by
  constructor
  · simp [process_artifacts, initial_pick, pick_one, sched_loop, sched_cons,
      top_up, srun, sready, failingRule]
  · simp [process_artifacts, initial_pick, pick_one, sched_loop, sched_cons,
      top_up, srun, sready, failingRule]

/-! ## Rule identifiers (src/rule.rs, `Rule::from_api`)

`Rule::from_api` feeds every output artifact into an `fxhash::FxHasher` and
takes `finish()` as the 64-bit rule id.  The hasher itself lives in the
external `fxhash` crate (v0.2, the dependency the source uses); it is
modelled here bit-for-bit for a 64-bit little-endian target: state starts at
0, each word is mixed by `hash = (hash.rotate_left(5) ^ word) * SEED`, and
`write` consumes the byte slice as 8-, then 4-, 2-, 1-byte little-endian
words.  Hashing an artifact hashes its name (`impl Hash for Internal`,
src/artifact.rs lines 86-90), and hashing a Rust `str` writes its UTF-8
bytes followed by a `0xff` terminator byte. -/

def fxSeed : Nat := 0x517cc1b727220a95

/-- Mirrors `u64::rotate_left(5)` on a value below `2 ^ 64`. -/
def rotl5 (h : Nat) : Nat :=
  (h % 2 ^ 59) * 2 ^ 5 + h / 2 ^ 59

/-- Mirrors `hash_word`: `(hash.rotate_left(5) ^ word).wrapping_mul(SEED)`. -/
def hash_word (h w : Nat) : Nat :=
  ((rotl5 h) ^^^ w) * fxSeed % 2 ^ 64

/-- Mirrors `Hasher::write_u8`: mix one byte as a word. -/
def fxwrite_u8 (h b : Nat) : Nat :=
  hash_word h b

def fxtail1 (h : Nat) : List Nat → Nat
  | b0 :: _ => hash_word h b0
  | [] => h

def fxtail2 (h : Nat) : List Nat → Nat
  | b0 :: b1 :: rest => fxtail1 (hash_word h (b0 + 256 * b1)) rest
  | bs => fxtail1 h bs

def fxtail4 (h : Nat) : List Nat → Nat
  | b0 :: b1 :: b2 :: b3 :: rest =>
    fxtail2 (hash_word h (b0 + 256 * (b1 + 256 * (b2 + 256 * b3)))) rest
  | bs => fxtail2 h bs

/-- Mirrors `Hasher::write` for the 64-bit FxHasher: little-endian 8-byte words,
then the 4/2/1-byte tail. -/
def fxwrite (h : Nat) : List Nat → Nat
  | b0 :: b1 :: b2 :: b3 :: b4 :: b5 :: b6 :: b7 :: rest =>
    fxwrite
      (hash_word h
        (b0 + 256 * (b1 + 256 * (b2 + 256 * (b3 + 256 * (b4 + 256 *
          (b5 + 256 * (b6 + 256 * b7))))))))
      rest
  | bs => fxtail4 h bs

/-- UTF-8 encoding of one code point. -/
def utf8Bytes (c : Nat) : List Nat :=
  if c < 0x80 then [c]
  else if c < 0x800 then [0xC0 + c / 64, 0x80 + c % 64]
  else if c < 0x10000 then
    [0xE0 + c / 4096, 0x80 + c / 64 % 64, 0x80 + c % 64]
  else
    [0xF0 + c / 262144, 0x80 + c / 4096 % 64, 0x80 + c / 64 % 64,
      0x80 + c % 64]

def strBytes (s : String) : List Nat :=
  s.data.foldr (fun c acc => utf8Bytes c.toNat ++ acc) []

/-- Mirrors `impl Hash for str`: `state.write(self.as_bytes()); state.write_u8(0xff)`. -/
def hashStr (h : Nat) (s : String) : Nat :=
  fxwrite_u8 (fxwrite h (strBytes s)) 0xff

/-- Mirrors `impl Hash for Internal` (src/artifact.rs lines 86-90): hash the name. -/
def artifactHash (h : Nat) (a : Artifact) : Nat :=
  hashStr h a.name

/-- The `RuleApi` trait surface `Rule::from_api` consults: ordered input and
output artifact lists. -/
structure RuleApi where
  inputs : List Artifact
  outputs : List Artifact

/-- Mirrors `struct Internal` of src/rule.rs lines 62-67: id, state, diagnostics,
api. -/
structure Rule where
  id : Nat
  state : RuleState
  diagnostics : Diagnostics
  api : RuleApi

/-- Mirrors `Rule::from_api` (src/rule.rs lines 90-106): hash the outputs in order
with a default `FxHasher`, take `finish()` as the id, and start with default
state (`Processed`) and empty diagnostics. -/
def Rule.from_api (api : RuleApi) : Rule :=
  { id := api.outputs.foldl artifactHash 0
    state := RuleState.defaultState
    diagnostics := Diagnostics.defaultDiagnostics
    api := api }

/-- The spec's `H(output_name_1, output_name_2, …)`: the stable 64-bit Fx
hash over an ordered list of names. -/
def fxHashNames (names : List String) : Nat :=
  names.foldl hashStr 0

theorem foldl_artifactHash_eq (l : List Artifact) (h0 : Nat) :
    l.foldl artifactHash h0 = (l.map Artifact.name).foldl hashStr h0 := by
  induction l generalizing h0 with
  | nil => rfl
  | cons a rest ih => simp [artifactHash, ih]

/-- C7, confirmed: every rule built by `Rule::from_api` has identifier
`H(ordered output names)` for the fixed deterministic 64-bit Fx hash `H`;
hence two rules with the same ordered output names receive the same
identifier, and — `H` being a pure function of the names — the identifier
is stable across runs. -/
theorem rule_from_api_id_spec (api api2 : RuleApi)
    (h : api.outputs.map Artifact.name = api2.outputs.map Artifact.name) :
    (Rule.from_api api).id = fxHashNames (api.outputs.map Artifact.name)
    ∧ (Rule.from_api api).id = (Rule.from_api api2).id := by
  constructor
  · simp [Rule.from_api, fxHashNames, foldl_artifactHash_eq]
  · simp [Rule.from_api, foldl_artifactHash_eq, h]

/-- A link-style api: one output named `app`, no recorded inputs yet. -/
def appApi1 : RuleApi :=
  ⟨[], [Artifact.new_raw .output .actual "app" ""]⟩

/-- Another api with the same ordered output names but different inputs,
description and timestamp. -/
def appApi2 : RuleApi :=
  ⟨[Artifact.new_raw .input .actual "a.o" ""],
    [Artifact.mk "app" "linked binary" .product .actual 7 .none]⟩

theorem rule_from_api_id_spec_witness :
    appApi1.outputs.map Artifact.name = appApi2.outputs.map Artifact.name
    ∧ ((Rule.from_api appApi1).id = fxHashNames (appApi1.outputs.map Artifact.name)
        ∧ (Rule.from_api appApi1).id = (Rule.from_api appApi2).id) :=
  ⟨rfl, rule_from_api_id_spec appApi1 appApi2 rfl⟩

/-! ## Platform-adjusted file names (src/compiler/platform.rs) -/

/-- Mirrors `semver::Version` restricted to the numeric triple the driver passes
around (`SemVer` wraps it; display is `major.minor.patch`). -/
structure SemVer where
  major : Nat
  minor : Nat
  patch : Nat
deriving DecidableEq, Repr

def SemVer.toStr (v : SemVer) : String :=
  toString v.major ++ "." ++ toString v.minor ++ "." ++ toString v.patch

/-- Mirrors `enum FileKind` (src/compiler/platform.rs lines 48-60). -/
inductive FileKind where
  | executable
  | dynamic (library : Bool) (version : Option SemVer)
  | static (library : Bool)
  | object
deriving DecidableEq, Repr

/-- Mirrors `enum PlatformKind { None, Unix, Darwin, Windows }`. -/
inductive PlatformKind where
  | none
  | unix
  | darwin
  | windows
deriving DecidableEq, Repr

/-- Mirrors `FileKind::file_name` (src/compiler/platform.rs lines 62-104): select a
`(prefix, suffix, version)` triple by platform and kind, then format
`{prefix}{name}{suffix}` with `.{version}` appended when a version is
selected.  Note the `Dynamic` arm on Windows keeps the `lib` prefix when
`library` is true and drops the version. -/
def FileKind.file_name (k : FileKind) (platform : PlatformKind)
    (name : String) : String :=
  let psv : String × String × Option SemVer :=
    match platform with
    | .none | .unix =>
      match k with
      | .executable => ("", "", Option.none)
      | .dynamic library version =>
        (if library then "lib" else "", ".so", version)
      | .static library => (if library then "lib" else "", ".a", Option.none)
      | .object => ("", ".o", Option.none)
    | .darwin =>
      match k with
      | .executable => ("", "", Option.none)
      | .dynamic library version =>
        (if library then "lib" else "", ".dylib", version)
      | .static library => (if library then "lib" else "", ".a", Option.none)
      | .object => ("", ".o", Option.none)
    | .windows =>
      match k with
      | .executable => ("", ".exe", Option.none)
      | .dynamic library _ =>
        (if library then "lib" else "", ".dll", Option.none)
      | .static library =>
        (if library then "lib" else "", ".lib", Option.none)
      | .object => ("", ".obj", Option.none)
  match psv with
  | (pre, suf, Option.some version) => pre ++ name ++ suf ++ "." ++ version.toStr
  | (pre, suf, Option.none) => pre ++ name ++ suf

/-- Mirrors `Dynamic { library: true, version: Some(1.2.3) }`. -/
def dynLibV123 : FileKind :=
  .dynamic true (Option.some ⟨1, 2, 3⟩)

/-- C9, counterexample: on Windows the code yields `libfoo.dll`, not the
claimed `foo.dll` — the `lib` prefix is applied on Windows too whenever
`library` is true. -/
theorem file_name_windows_counterexample :
    ¬ (dynLibV123.file_name .windows "foo" = "foo.dll") := by
  decide

/-- C9, amended: `FileKind::file_name` of base name `foo` with kind
`Dynamic{library: true, version: Some(1.2.3)}` yields `libfoo.so.1.2.3` on
Unix, `libfoo.dylib.1.2.3` on Darwin, and `libfoo.dll` on Windows (version
dropped, `lib` prefix kept). -/
theorem file_name_amended :
    dynLibV123.file_name .unix "foo" = "libfoo.so.1.2.3"
    ∧ dynLibV123.file_name .darwin "foo" = "libfoo.dylib.1.2.3"
    ∧ dynLibV123.file_name .windows "foo" = "libfoo.dll" :=
  ⟨rfl, rfl, rfl⟩

/-! ## The link rule (src/compiler/compiler.rs) -/

/-- Mirrors `struct LinkInternal` (src/compiler/compiler.rs lines 498-505): output
kind, the object inputs, the optional linker script, and weak references to
the binary and map artifacts (`Option` models `WeakArtifact::try_ref`). -/
structure LinkInternal where
  out_kind : FileKind
  objs : List Artifact
  script : Option Artifact
  out : Option Artifact
  map : Option Artifact

/-- Mirrors `impl RuleApi for LinkInternal`, `inputs` (lines 514-520): the script,
if any, chained with the objects. -/
def LinkInternal.inputs (l : LinkInternal) : List Artifact :=
  l.script.toList ++ l.objs

/-- Mirrors `impl RuleApi for LinkInternal`, `outputs` (lines 522-528): only
`self.out.try_ref()` is collected — the map artifact is *not* part of the
rule's output list. -/
def LinkInternal.outputs (l : LinkInternal) : List Artifact :=
  l.out.toList

/-- Mirrors `CompilerConfig::link` (src/compiler/compiler.rs lines 720-758):
platform-adjust the output name, intern the binary and `<binary>.map`
artifacts (named here relative to `out_dir`), build the `LinkInternal`, and
attach the rule to both artifacts.  Returns the internal plus the two
artifacts of the returned `LinkOutput`. -/
def CompilerConfig.link (platform : PlatformKind) (out_kind : FileKind)
    (objs : List Artifact) (script : Option Artifact) (out_name : String) :
    LinkInternal × Artifact × Artifact :=
  let out_name := out_kind.file_name platform out_name
  let out := Artifact.new_raw .output .actual out_name ""
  let map_name := out_name ++ ".map"
  let map := Artifact.new_raw .output .actual map_name ""
  let rule_inputs := InputList.ofList (script.toList ++ objs)
  (⟨out_kind, objs, script, Option.some out, Option.some map⟩,
    out.set_rule rule_inputs, map.set_rule rule_inputs)

/-- C8, counterexample: the output set of a link rule
(`RuleApi::outputs`) holds exactly one artifact — the binary — not the
claimed two; the map file is created and owns the rule, but `outputs()`
never reports it. -/
theorem link_outputs_claim_counterexample :
    ¬ ((CompilerConfig.link .unix .executable [] Option.none "app").1.outputs.length
        = 2) := by
  decide

/-- C8, amended: for every link rule created by `CompilerConfig::link`, the
rule's `RuleApi::outputs` consists of exactly one artifact, the output
binary; the map file named `<binary>.map` is also created and shares the
rule, but is not part of the rule's output set. -/
theorem link_outputs_amended (platform : PlatformKind) (out_kind : FileKind)
    (objs : List Artifact) (script : Option Artifact) (out_name : String) :
    ((CompilerConfig.link platform out_kind objs script out_name).1.outputs.map
        Artifact.name
      = [out_kind.file_name platform out_name])
    ∧ (CompilerConfig.link platform out_kind objs script out_name).2.2.name
        = out_kind.file_name platform out_name ++ ".map" := by
  constructor <;>
    simp [CompilerConfig.link, LinkInternal.outputs, Artifact.new_raw,
      Artifact.set_rule, Artifact.name, Option.toList]

end Gear
